import Mathlib

/-!
Verification of the execution-session protocol engine of the swift-jupyter
kernel (`swift_kernel.py`), as a shallow embedding in Lean 4.

Texts are modelled as lists of characters (`Str`).  External collaborators
(the LLDB evaluator, the filesystem, the shell, environment variables, the
SwiftPM / Bazel build tails) are modelled at their boundary as explicit
oracle values or functions; everything else is translated directly from the
Python source.  Python's `re` character class `\s` and `str.isspace` are
modelled on their ASCII fragment, which covers every text appearing in the
theorems below.
-/

abbrev Str := List Char

/-- Single-quote character, used when building Python `repr`-style strings. -/
def sqc : Char := '\''

/-- Model of Python `code.split('\n')`: split at every newline, keeping
empty pieces, so that `split ""` is `[""]` and `split "a\n"` is `["a", ""]`. -/
def pySplitLines : Str → List Str
  | [] => [[]]
  | c :: rest =>
    if c = '\n' then [] :: pySplitLines rest
    else
      match pySplitLines rest with
      | [] => [[c]]
      | f :: others => (c :: f) :: others

/-- Model of Python `'\n'.join(lines)`. -/
def joinNL : List Str → Str
  | [] => []
  | [l] => l
  | l :: ls => l ++ '\n' :: joinNL ls

theorem pySplitLines_ne_nil (s : Str) : pySplitLines s ≠ [] := by
  cases s with
  | nil => simp [pySplitLines]
  | cons c rest =>
    simp only [pySplitLines]
    split
    · simp
    · split
      · simp
      · simp

theorem joinNL_pySplitLines (s : Str) : joinNL (pySplitLines s) = s := by
  induction s with
  | nil => rfl
  | cons c rest ih =>
    simp only [pySplitLines]
    split
    · rename_i hc
      subst hc
      rcases h : pySplitLines rest with _ | ⟨f, others⟩
      · exact absurd h (pySplitLines_ne_nil rest)
      · rw [h] at ih
        simp only [joinNL]
        rw [ih]
        rfl
    · rcases h : pySplitLines rest with _ | ⟨f, others⟩
      · exact absurd h (pySplitLines_ne_nil rest)
      · rw [h] at ih
        cases others with
        | nil => simp only [joinNL] at ih ⊢; rw [ih]
        | cons o os =>
          simp only [joinNL] at ih ⊢
          rw [List.cons_append, ih]

theorem mem_of_mem_pySplitLines {c : Char} {l s : Str}
    (hl : l ∈ pySplitLines s) (hc : c ∈ l) : c ∈ s := by
  induction s generalizing l with
  | nil =>
    simp [pySplitLines] at hl
    subst hl
    simp at hc
  | cons d rest ih =>
    simp only [pySplitLines] at hl
    split at hl
    · rcases List.mem_cons.mp hl with h | h
      · subst h; simp at hc
      · exact List.mem_cons_of_mem _ (ih h hc)
    · rcases h : pySplitLines rest with _ | ⟨f, others⟩
      · exact absurd h (pySplitLines_ne_nil rest)
      · rw [h] at hl
        rcases List.mem_cons.mp hl with h' | h'
        · subst h'
          rcases List.mem_cons.mp hc with h'' | h''
          · subst h''; exact List.mem_cons_self _ _
          · exact List.mem_cons_of_mem _ (ih (h ▸ List.mem_cons_self f others) h'')
        · exact List.mem_cons_of_mem _ (ih (h ▸ List.mem_cons_of_mem f h') hc)

/-- ASCII fragment of Python's regex class `\s` and of `str.isspace`. -/
def pyIsSpaceChar (c : Char) : Bool :=
  c == ' ' || c == '\t' || c == '\n' || c == '\r' || c == '\x0b' || c == '\x0c'

/-- Model of `len(code) == 0 or code.isspace()` (the blank-submission test in
`do_execute`): `str.isspace` is true iff the string is nonempty and all of
its characters are whitespace. -/
def pyIsBlank (s : Str) : Bool :=
  s.isEmpty || (!s.isEmpty && s.all pyIsSpaceChar)

/-- Drop the leading whitespace matched by `\s*` at the start of a line. -/
def dropWS (s : Str) : Str := s.dropWhile pyIsSpaceChar

def listStartsWith : Str → Str → Bool
  | [], _ => true
  | _ :: _, [] => false
  | p :: ps, s :: ss => p == s && listStartsWith ps ss

theorem listStartsWith_iff {p s : Str} :
    listStartsWith p s = true ↔ ∃ t, s = p ++ t := by
  induction p generalizing s with
  | nil => simp [listStartsWith]
  | cons a ps ih =>
    cases s with
    | nil => simp [listStartsWith]
    | cons b ss =>
      simp only [listStartsWith, Bool.and_eq_true, beq_iff_eq]
      constructor
      · rintro ⟨hab, h⟩
        subst hab
        obtain ⟨t, ht⟩ := ih.mp h
        exact ⟨t, by simp [ht]⟩
      · rintro ⟨t, ht⟩
        simp only [List.cons_append, List.cons.injEq] at ht
        exact ⟨ht.1.symm ▸ rfl, ih.mpr ⟨t, ht.2⟩⟩

theorem mem_of_mem_dropWS {c : Char} {s : Str} (h : c ∈ dropWS s) : c ∈ s := by
  induction s with
  | nil => simp [dropWS] at h
  | cons d rest ih =>
    simp only [dropWS, List.dropWhile] at h
    split at h
    · exact List.mem_cons_of_mem _ (ih h)
    · exact h

/-- Match `^\s*%KEYWORD (.*)$` (the shape of every argument-taking directive
regex in the kernel): strip leading whitespace, require the keyword followed
by one literal space, and return the rest of the line. -/
def matchKeywordSpace (kw : Str) (line : Str) : Option Str :=
  let t := dropWS line
  if listStartsWith (kw ++ [' ']) t then some (t.drop (kw.length + 1)) else none

/-- Match `^\s*%KEYWORD\s*$` (the shape of the completion-toggle directive
regexes): strip leading whitespace, require the keyword, and require the
remainder to be whitespace only. -/
def matchBare (kw : Str) (line : Str) : Bool :=
  let t := dropWS line
  listStartsWith kw t && (t.drop kw.length).all pyIsSpaceChar

theorem matchKeywordSpace_eq_some {kw line rest : Str}
    (h : matchKeywordSpace kw line = some rest) :
    dropWS line = (kw ++ [' ']) ++ rest := by
  simp only [matchKeywordSpace] at h
  split at h
  · rename_i hsw
    obtain ⟨t, ht⟩ := listStartsWith_iff.mp hsw
    simp only [Option.some.injEq] at h
    have hdrop : (dropWS line).drop (kw.length + 1) = t := by
      rw [ht]
      have hlen : (kw ++ [' ']).length = kw.length + 1 := by
        simp
      rw [← hlen, List.drop_left]
    rw [ht, ← h, hdrop]
  · exact absurd h (by simp)

deriving instance DecidableEq for Except

/-- Model of matching `^\s*"([^"]+)"\s*$` against the rest of a `%include`
line: optional whitespace, a double quote, one or more non-quote characters
(the name), a closing quote, optional trailing whitespace. -/
def parseQuotedName (restOfLine : Str) : Option Str :=
  match dropWS restOfLine with
  | '"' :: t =>
    let name := t.takeWhile (fun c => !(c == '"'))
    match t.drop name.length with
    | '"' :: tl => if !name.isEmpty && tl.all pyIsSpaceChar then some name else none
    | _ => none
  | _ => none

/-- Whitespace set of Python's `shlex` lexer (`shlex.whitespace`). -/
def shlexWS (c : Char) : Bool :=
  c == ' ' || c == '\t' || c == '\r' || c == '\n'

inductive LexMode where
  | norm
  | insingle
  | indouble
deriving DecidableEq

/-- Core loop of Python `shlex.split` in POSIX mode: whitespace separates
tokens; single quotes are literal runs; double quotes allow `\"` and `\\`
escapes and keep other backslashes verbatim; a backslash outside quotes
escapes the next character.  An unterminated quote raises
`ValueError('No closing quotation')` and a trailing escape raises
`ValueError('No escaped character')`; the error message is returned in the
`Except.error` case. -/
def shlexCore : Str → LexMode → Bool → Str → Except Str (List Str)
  | [], .norm, hasTok, acc => .ok (if hasTok then [acc] else [])
  | [], .insingle, _, _ => .error "No closing quotation".data
  | [], .indouble, _, _ => .error "No closing quotation".data
  | c :: rest, .norm, hasTok, acc =>
    if shlexWS c then
      if hasTok then
        match shlexCore rest .norm false [] with
        | .error e => .error e
        | .ok toks => .ok (acc :: toks)
      else shlexCore rest .norm false []
    else if c = '\'' then shlexCore rest .insingle true acc
    else if c = '"' then shlexCore rest .indouble true acc
    else if c = '\\' then
      match rest with
      | [] => .error "No escaped character".data
      | d :: rest2 => shlexCore rest2 .norm true (acc ++ [d])
    else shlexCore rest .norm true (acc ++ [c])
  | c :: rest, .insingle, _, acc =>
    if c = '\'' then shlexCore rest .norm true acc
    else shlexCore rest .insingle true (acc ++ [c])
  | c :: rest, .indouble, _, acc =>
    if c = '"' then shlexCore rest .norm true acc
    else if c = '\\' then
      match rest with
      | [] => .error "No escaped character".data
      | d :: rest2 =>
        if d = '"' || d = '\\' then shlexCore rest2 .indouble true (acc ++ [d])
        else shlexCore rest2 .indouble true (acc ++ ['\\', d])
    else shlexCore rest .indouble true (acc ++ [c])

/-- Model of Python `shlex.split(s)` (POSIX mode). -/
def shlexSplit (s : Str) : Except Str (List Str) :=
  shlexCore s .norm false []

inductive TemplateErr where
  | keyError (name : Str)
  | valueError
deriving DecidableEq

def isIdStart (c : Char) : Bool := c.isAlpha || c == '_'

def isIdCont (c : Char) : Bool := c.isAlphanum || c == '_'

/-- Model of `string.Template(s).substitute(dict(cwd=cwd))`: `$$` yields a
dollar sign, `$cwd` and `$\x7bcwd\x7d` substitute the working directory, any
other identifier raises `KeyError`, and a dollar sign followed by anything
else raises `ValueError` (an invalid placeholder).  The positional detail in
the stdlib's `ValueError` message is abstracted.  The `fuel` argument is a
totality device only: every recursive call is on a strictly shorter suffix,
so starting the scan with `fuel = s.length` never exhausts it. -/
def templateSubGo (cwd : Str) : Nat → Str → Except TemplateErr Str
  | _, [] => .ok []
  | 0, _ :: _ => .error .valueError
  | fuel + 1, '$' :: rest =>
    match rest with
    | '$' :: rest2 =>
      match templateSubGo cwd fuel rest2 with
      | .error e => .error e
      | .ok t => .ok ('$' :: t)
    | '{' :: rest2 =>
      match rest2 with
      | [] => .error .valueError
      | c :: cs =>
        if isIdStart c then
          let idTail := cs.takeWhile isIdCont
          match cs.drop idTail.length with
          | '}' :: tl =>
            if c :: idTail = "cwd".data then
              match templateSubGo cwd fuel tl with
              | .error e => .error e
              | .ok t => .ok (cwd ++ t)
            else .error (.keyError (c :: idTail))
          | _ => .error .valueError
        else .error .valueError
    | c :: cs =>
      if isIdStart c then
        let idTail := cs.takeWhile isIdCont
        if c :: idTail = "cwd".data then
          match templateSubGo cwd fuel (cs.drop idTail.length) with
          | .error e => .error e
          | .ok t => .ok (cwd ++ t)
        else .error (.keyError (c :: idTail))
      else .error .valueError
    | [] => .error .valueError
  | fuel + 1, c :: rest =>
    match templateSubGo cwd fuel rest with
    | .error e => .error e
    | .ok t => .ok (c :: t)

def templateSub (cwd : Str) (s : Str) : Except TemplateErr Str :=
  templateSubGo cwd s.length s

/-- Closed tagged model of the exception classes thrown while handling one
execute request: `PreprocessorException`, `PackageInstallException`, and a
catch-all for any other Python exception that reaches the request boundary
(such as the `NameError`/`ValueError` faults noted below), which
`do_execute` reports as a bad-state error and re-raises. -/
inductive KernelException where
  | preprocessorException (msg : Str)
  | packageInstallException (msg : Str)
  | internalFault (msg : Str)
deriving DecidableEq

def KernelException.pyStr : KernelException → Str
  | .preprocessorException m => m
  | .packageInstallException m => m
  | .internalFault m => m

/-- Protocol messages published on the iopub channel by the kernel. -/
inductive Msg where
  | stream (name : Str) (text : Str)
  | clearOutput (wait : Bool)
  | executeResult (executionCount : Nat) (textPlain : Str)
  | errorMsg (executionCount : Nat) (traceback : List Str)
deriving DecidableEq

/-- Reply returned from `do_execute`: an ok dict, or the error-message dict
built by `_make_error_message` (also sent on iopub). -/
inductive Reply where
  | ok (executionCount : Nat)
  | error (executionCount : Nat) (traceback : List Str)
deriving DecidableEq

/-- Session-visible mutable state of `SwiftKernel`: whether `self.debugger`
exists (the evaluator has booted), the completion flag, and the execution
counter maintained by the host kernel base class. -/
structure KernelState where
  hasDebugger : Bool
  completionEnabled : Bool
  executionCount : Nat
deriving DecidableEq

/-- State set up by `__init__`: no debugger yet, completion disabled. -/
def initialKernelState : KernelState :=
  { hasDebugger := false, completionEnabled := false, executionCount := 0 }

/-- Boundary model of one frame of the stopped main thread: whether
`frame.line_entry.file` is truthy, its `fullpath`, and `str(frame)`. -/
structure Frame where
  hasFileInfo : Bool
  fullpath : Str
  displayStr : Str
deriving DecidableEq

/-- Translation of `_get_pretty_main_thread_stack_trace`: keep only frames
with source-location information whose file is not `<compiler-generated>`,
rendering each kept frame with `str(frame)`. -/
def pretty_main_thread_stack_trace : List Frame → List Str
  | [] => []
  | f :: fs =>
    if !f.hasFileInfo then pretty_main_thread_stack_trace fs
    else if f.fullpath = "<compiler-generated>".data then
      pretty_main_thread_stack_trace fs
    else f.displayStr :: pretty_main_thread_stack_trace fs

/-- Tri-state outcome of one `SBTarget.EvaluateExpression` call, classified
by `_execute` from `result.error.type`: `eErrorTypeInvalid` means a value
was produced, `eErrorTypeGeneric` means success without a value, anything
else is a Swift compile or runtime error carrying
`result.error.description`. -/
inductive EvalOutcome where
  | valueProduced (valueDescription : Str)
  | noValue
  | diagnostic (errorDescription : Str)
deriving DecidableEq

/-- The `ExecutionResult` class hierarchy of the kernel. -/
inductive ExecutionResult where
  | successWithValue (valueDescription : Str)
  | successWithoutValue
  | preprocessorError (msg : Str)
  | swiftError (errorDescription : Str)
deriving DecidableEq

def ExecutionResult.isSuccess : ExecutionResult → Bool
  | .successWithValue _ => true
  | .successWithoutValue => true
  | _ => false

/-- The `description()` method of `ExecutionResultError`: `str(exception)`
for a preprocessor error, `result.error.description` for a Swift error.
(The success cases never reach it; they are given the empty string.) -/
def ExecutionResult.description : ExecutionResult → Str
  | .preprocessorError m => m
  | .swiftError d => d
  | _ => []

/-- Translation of `_execute` at the evaluator boundary. -/
def executeFragment (outcome : EvalOutcome) : ExecutionResult :=
  match outcome with
  | .valueProduced d => .successWithValue d
  | .noValue => .successWithoutValue
  | .diagnostic d => .swiftError d

def stdoutName : Str := "stdout".data

/-- The ANSI clear-entire-display sequence `'\033[2J'` recognized by
`StdoutHandler._send_stdout`. -/
def clearSeq : Str := ['\x1b', '[', '2', 'J']

/-- Model of Python `stdout.find(clear_sequence)` combined with the two
slices around it: locate the first occurrence of `clearSeq`, returning the
text before it and the text after it. -/
def findClear : Str → Option (Str × Str)
  | [] => none
  | c :: rest =>
    if listStartsWith clearSeq (c :: rest) then some ([], (c :: rest).drop clearSeq.length)
    else
      match findClear rest with
      | some (p, suf) => some (c :: p, suf)
      | none => none

theorem findClear_decomp {s p q : Str} (h : findClear s = some (p, q)) :
    s = p ++ clearSeq ++ q := by
  induction s generalizing p with
  | nil => simp [findClear] at h
  | cons c rest ih =>
    simp only [findClear] at h
    split at h
    · rename_i hsw
      obtain ⟨t, ht⟩ := listStartsWith_iff.mp hsw
      simp only [Option.some.injEq, Prod.mk.injEq] at h
      obtain ⟨hp, hq⟩ := h
      subst hp
      rw [ht] at hq ⊢
      rw [List.drop_left' rfl] at hq
      simp [hq]
    · rcases hr : findClear rest with _ | ⟨p', suf⟩ <;> rw [hr] at h
      · exact absurd h (by simp)
      · simp only [Option.some.injEq, Prod.mk.injEq] at h
        obtain ⟨hp, hq⟩ := h
        subst hq
        rw [← hp, ih hr]
        simp

theorem findClear_before_none {s p q : Str} (h : findClear s = some (p, q)) :
    findClear p = none := by
  induction s generalizing p q with
  | nil => simp [findClear] at h
  | cons c rest ih =>
    simp only [findClear] at h
    split at h
    · simp only [Option.some.injEq, Prod.mk.injEq] at h
      rw [← h.1]
      rfl
    · rename_i hsw
      rcases hr : findClear rest with _ | ⟨p', suf⟩ <;> rw [hr] at h
      · exact absurd h (by simp)
      · simp only [Option.some.injEq, Prod.mk.injEq] at h
        obtain ⟨hp, hq⟩ := h
        have hnone : findClear p' = none := ih hr
        have hdec := findClear_decomp hr
        rw [← hp]
        simp only [findClear]
        rw [hnone]
        split
        · rename_i hsw2
          exfalso
          apply hsw
          obtain ⟨t, ht⟩ := listStartsWith_iff.mp hsw2
          apply listStartsWith_iff.mpr
          refine ⟨t ++ clearSeq ++ suf, ?_⟩
          have h1 : c :: rest = (c :: p') ++ (clearSeq ++ suf) := by
            rw [hdec]
            simp
          rw [h1, ht]
          simp
        · rfl

theorem findClear_lengths {s p q : Str} (h : findClear s = some (p, q)) :
    p.length < s.length ∧ q.length < s.length := by
  have hd := findClear_decomp h
  have : s.length = p.length + (clearSeq.length + q.length) := by
    rw [hd]
    simp
  simp only [clearSeq, List.length_cons, List.length_nil] at this
  omega

/-- Translation of `StdoutHandler._send_stdout`: if the chunk contains the
clear sequence, recursively send the text before it, publish a
`clear_output` message, and recursively send the text after it; otherwise
publish the chunk as one stream message. -/
def send_stdout (s : Str) : List Msg :=
  match h : findClear s with
  | some (p, q) => send_stdout p ++ Msg.clearOutput false :: send_stdout q
  | none => [Msg.stream stdoutName s]
termination_by s.length
decreasing_by
  · exact (findClear_lengths h).1
  · exact (findClear_lengths h).2

/-- The text segments of a chunk, split at every (non-overlapping, leftmost
first) occurrence of the clear sequence. -/
def splitClear (s : Str) : List Str :=
  match h : findClear s with
  | some (p, q) => p :: splitClear q
  | none => [s]
termination_by s.length
decreasing_by
  · exact (findClear_lengths h).2

theorem send_stdout_of_some {s p q : Str} (h : findClear s = some (p, q)) :
    send_stdout s = send_stdout p ++ Msg.clearOutput false :: send_stdout q := by
  rw [send_stdout]
  split
  · rename_i p2 q2 heq
    rw [h] at heq
    injection heq with heq2
    injection heq2 with h1 h2
    rw [h1, h2]
  · rename_i heq
    rw [h] at heq
    exact absurd heq (by simp)

theorem send_stdout_of_none {s : Str} (h : findClear s = none) :
    send_stdout s = [Msg.stream stdoutName s] := by
  rw [send_stdout]
  split
  · rename_i p2 q2 heq
    rw [h] at heq
    exact absurd heq (by simp)
  · rfl

theorem splitClear_of_some {s p q : Str} (h : findClear s = some (p, q)) :
    splitClear s = p :: splitClear q := by
  rw [splitClear]
  split
  · rename_i p2 q2 heq
    rw [h] at heq
    injection heq with heq2
    injection heq2 with h1 h2
    rw [h1, h2]
  · rename_i heq
    rw [h] at heq
    exact absurd heq (by simp)

theorem splitClear_of_none {s : Str} (h : findClear s = none) :
    splitClear s = [s] := by
  rw [splitClear]
  split
  · rename_i p2 q2 heq
    rw [h] at heq
    exact absurd heq (by simp)
  · rfl

theorem splitClear_ne_nil (s : Str) : splitClear s ≠ [] := by
  rw [splitClear]
  split <;> simp

/-- Rebuilding a chunk from its segments, putting the clear sequence back
between consecutive segments. -/
def joinClear : List Str → Str
  | [] => []
  | [x] => x
  | x :: xs => x ++ clearSeq ++ joinClear xs

theorem send_stdout_intersperse (s : Str) :
    send_stdout s =
      List.intersperse (Msg.clearOutput false) ((splitClear s).map (Msg.stream stdoutName)) := by
  have key : ∀ (n : Nat) (s : Str), s.length = n →
      send_stdout s =
        List.intersperse (Msg.clearOutput false) ((splitClear s).map (Msg.stream stdoutName)) := by
    intro n
    induction n using Nat.strong_induction_on with
    | _ n ih =>
      intro s hn
      rcases h : findClear s with _ | ⟨p, q⟩
      · rw [send_stdout_of_none h, splitClear_of_none h]
        simp
      · have hlen := findClear_lengths h
        have hp : send_stdout p = [Msg.stream stdoutName p] :=
          send_stdout_of_none (findClear_before_none h)
        have hq := ih q.length (hn ▸ hlen.2) q rfl
        rw [send_stdout_of_some h, splitClear_of_some h, hp, hq]
        rcases hsplit : splitClear q with _ | ⟨x, xs⟩
        · exact absurd hsplit (splitClear_ne_nil q)
        · simp [List.intersperse]
  exact key s.length s rfl

theorem joinClear_splitClear (s : Str) : joinClear (splitClear s) = s := by
  have key : ∀ (n : Nat) (s : Str), s.length = n → joinClear (splitClear s) = s := by
    intro n
    induction n using Nat.strong_induction_on with
    | _ n ih =>
      intro s hn
      rcases h : findClear s with _ | ⟨p, q⟩
      · rw [splitClear_of_none h]
        rfl
      · have hlen := findClear_lengths h
        have hq := ih q.length (hn ▸ hlen.2) q rfl
        rw [splitClear_of_some h]
        rcases hsplit : splitClear q with _ | ⟨x, xs⟩
        · exact absurd hsplit (splitClear_ne_nil q)
        · rw [hsplit] at hq
          simp only [joinClear]
          rw [hq, ← findClear_decomp h]
  exact key s.length s rfl

theorem count_clear_intersperse (l : List Msg)
    (h : ∀ x ∈ l, x ≠ Msg.clearOutput false) :
    (List.intersperse (Msg.clearOutput false) l).count (Msg.clearOutput false) =
      l.length - 1 := by
  induction l with
  | nil => simp
  | cons a l ih =>
    cases l with
    | nil =>
      simp only [List.intersperse_singleton, List.count_singleton, List.length_cons]
      have ha := h a (List.mem_cons_self _ _)
      simp [List.count_cons, ha]
    | cons b l2 =>
      have ha := h a (List.mem_cons_self _ _)
      have hrest : ∀ x ∈ b :: l2, x ≠ Msg.clearOutput false := fun x hx =>
        h x (List.mem_cons_of_mem _ hx)
      have := ih hrest
      rw [List.intersperse_cons_cons]
      rw [List.count_cons, List.count_cons]
      rw [this]
      simp [ha]

/-- Conversion of a `String` literal to the character-list texts used by the
model. -/
def chars (s : String) : Str := s.data

def usePrintText : Str := chars "Use `print()` to show values.\n"

def processKilledText : Str := chars "Process killed"

def currentStackTraceHeader : Str := chars "Current stack trace:"

/-- Translation of the reply phase of `do_execute` (after the stdout handler
has been joined): classify the `ExecutionResult` together with
`self.process.is_alive` and `stdout_handler.had_stdout`, producing the iopub
messages sent by this phase, the request reply, and whether a kernel
shutdown callback was scheduled on the io loop. -/
def do_execute_respond (st : KernelState) (alive hadStdout : Bool)
    (frames : List Frame) (result : ExecutionResult) :
    List Msg × Reply × Bool :=
  match result with
  | .successWithValue _ =>
    ([Msg.executeResult st.executionCount usePrintText], Reply.ok st.executionCount, false)
  | .successWithoutValue =>
    ([], Reply.ok st.executionCount, false)
  | r =>
    if !alive then
      ([Msg.errorMsg st.executionCount [processKilledText]],
       Reply.error st.executionCount [processKilledText], true)
    else if hadStdout then
      let traceback :=
        currentStackTraceHeader ::
          (pretty_main_thread_stack_trace frames).map (fun f => '\t' :: f)
      ([Msg.errorMsg st.executionCount traceback],
       Reply.error st.executionCount traceback, false)
    else
      ([Msg.errorMsg st.executionCount [r.description]],
       Reply.error st.executionCount [r.description], false)

def natStr (n : Nat) : Str := (Nat.repr n).data

/-- Boundary model of the kernel's surroundings: the directory containing
the kernel script (`os.path.dirname(os.path.realpath(sys.argv[0]))`), the
working directory, the filesystem (path to contents, `none` for `IOError`),
the shell (`%system` commands to their combined output), the process
environment, and whether the toolchain's `SBTarget` has the `CompleteCode`
API. -/
structure Env where
  scriptDir : Str
  cwd : Str
  fs : Str → Option Str
  shell : Str → Str
  envVars : Str → Option Str
  hasCompleteCodeAPI : Bool

/-- Model of `os.path.join(p, name)` for the relative names the kernel
joins (an absolute `name` would behave differently, but is never produced
by the call sites modelled here). -/
def pathJoin (p name : Str) : Str := p ++ '/' :: name

/-- `'<Cell %d>' % self.execution_count` -/
def cellFileName (executionCount : Nat) : Str :=
  chars "<Cell " ++ natStr executionCount ++ chars ">"

def lineColon (lineIndex : Nat) : Str :=
  chars "Line " ++ natStr (lineIndex + 1) ++ chars ": "

def msgMustQuote (lineIndex : Nat) : Str :=
  lineColon lineIndex ++ chars "%include must be followed by a name in quotes"

/-- Python `repr` of a string without quotes or escapes in it, as it appears
inside the `Searched [...]` part of the include error. -/
def pyStrRepr (s : Str) : Str := sqc :: s ++ [sqc]

def msgIncludeNotFound (lineIndex : Nat) (name scriptDir cwd : Str) : Str :=
  lineColon lineIndex ++ chars "Could not find \"" ++ name ++
    chars "\". Searched [" ++ pyStrRepr scriptDir ++ chars ", " ++ pyStrRepr cwd ++
    chars "]."

def sourceLocationTo (file : Str) (line : Nat) : Str :=
  chars "#sourceLocation(file: \"" ++ file ++ chars "\", line: " ++ natStr line ++
    chars ")"

/-- Translation of `_read_include`: parse the quoted name, then try to read
`name` from the script directory and the working directory in that order.
The loop keeps the contents of the *last* successful open (it has no
`break`), so when the file exists in both places the working-directory copy
wins.  On success the directive line becomes the included text wrapped in
sourceLocation markers; otherwise a `PreprocessorException` is raised. -/
def read_include (env : Env) (executionCount lineIndex : Nat) (restOfLine : Str) :
    Except KernelException Str :=
  match parseQuotedName restOfLine with
  | none => .error (.preprocessorException (msgMustQuote lineIndex))
  | some name =>
    match
      List.foldl
        (fun acc includePath =>
          match env.fs (pathJoin includePath name) with
          | some contents => some contents
          | none => acc)
        none [env.scriptDir, env.cwd]
    with
    | none =>
      .error (.preprocessorException
        (msgIncludeNotFound lineIndex name env.scriptDir env.cwd))
    | some code =>
      .ok (joinNL [sourceLocationTo name 1, code,
        sourceLocationTo (cellFileName executionCount) (lineIndex + 1), []])

def completionDisabledText : Str := chars "Completion disabled!\n"

def completionNotEnabledText : Str :=
  chars "Completion NOT enabled because toolchain does not have CompleteCode API.\n"

def completionEnabledText : Str := chars "Completion enabled!\n"

def kwInclude : Str := chars "%include"

def kwDisableCompletion : Str := chars "%disableCompletion"

def kwEnableCompletion : Str := chars "%enableCompletion"

/-- Translation of `_preprocess_line` (with `_handle_disable_completion` and
`_handle_enable_completion` inlined): returns the rewritten line, the
updated kernel state, and the stream messages sent while handling the
line. -/
def preprocess_line (env : Env) (st : KernelState) (lineIndex : Nat) (line : Str) :
    Except KernelException (Str × KernelState × List Msg) :=
  match matchKeywordSpace kwInclude line with
  | some restOfLine =>
    match read_include env st.executionCount lineIndex restOfLine with
    | .error e => .error e
    | .ok text => .ok (text, st, [])
  | none =>
    if matchBare kwDisableCompletion line then
      .ok ([], { st with completionEnabled := false },
        [Msg.stream stdoutName completionDisabledText])
    else if matchBare kwEnableCompletion line then
      if !env.hasCompleteCodeAPI then
        .ok ([], st, [Msg.stream stdoutName completionNotEnabledText])
      else
        .ok ([], { st with completionEnabled := true },
          [Msg.stream stdoutName completionEnabledText])
    else .ok (line, st, [])

/-- Does `_preprocess_line` recognize this line as one of its directives
(`%include`, `%disableCompletion`, `%enableCompletion`)? -/
def isPreprocessorDirectiveLine (line : Str) : Bool :=
  (matchKeywordSpace kwInclude line).isSome || matchBare kwDisableCompletion line ||
    matchBare kwEnableCompletion line

/-- Line-indexed fold of `_preprocess_line` over the lines of a submission.
Messages sent before a failing line have already been published, so they are
returned alongside the `Except`; likewise completion toggles on earlier
lines persist. -/
def preprocess_lines (env : Env) (st : KernelState) (lineIndex : Nat) :
    List Str → List Msg × KernelState × Except KernelException (List Str)
  | [] => ([], st, .ok [])
  | l :: ls =>
    match preprocess_line env st lineIndex l with
    | .error e => ([], st, .error e)
    | .ok (out, st1, msgs) =>
      match preprocess_lines env st1 (lineIndex + 1) ls with
      | (msgs2, st2, .error e) => (msgs ++ msgs2, st2, .error e)
      | (msgs2, st2, .ok outs) => (msgs ++ msgs2, st2, .ok (out :: outs))

/-- Translation of `_preprocess`: split into lines, preprocess each line in
order, and join the results with newlines. -/
def preprocess (env : Env) (st : KernelState) (code : Str) :
    List Msg × KernelState × Except KernelException Str :=
  match preprocess_lines env st 0 (pySplitLines code) with
  | (msgs, st1, .error e) => (msgs, st1, .error e)
  | (msgs, st1, .ok outs) => (msgs, st1, .ok (joinNL outs))

def kwSystem : Str := chars "%system"

def kwInstallLocation : Str := chars "%install-location"

def kwInstallSwiftPMFlags : Str := chars "%install-swiftpm-flags"

def kwInstall : Str := chars "%install"

def kwBazel : Str := chars "%bazel"

def kwExtraIncludeCommand : Str := chars "%install-extra-include-command"

def systemFirstCellText : Str := chars "System commands can only run in the first cell."

/-- `str(NameError)` produced when the `except` handlers inside
`_process_install_location_line` reference the undefined name
`line_index`. -/
def nameErrorLineIndexText : Str :=
  chars "name " ++ [sqc] ++ chars "line_index" ++ [sqc] ++ chars " is not defined"

def installUsageText (lineIndex : Nat) : Str :=
  lineColon lineIndex ++ chars "%install usage: SPEC PRODUCT [PRODUCT ...]"

/-- `'Line %d: Invalid template argument %s'` with `str(KeyError)`, which
quotes the missing key. -/
def invalidTemplateArgText (lineIndex : Nat) (name : Str) : Str :=
  lineColon lineIndex ++ chars "Invalid template argument " ++ pyStrRepr name

/-- `'Line %d: %s'` with `str(ValueError)` from `string.Template` (the
stdlib's positional detail is abstracted). -/
def templateValueErrorText (lineIndex : Nat) : Str :=
  lineColon lineIndex ++ chars "Invalid placeholder in string"

def installFirstCellText : Str :=
  chars "Install Error: Packages can only be installed during the first cell execution. Restart the kernel to install packages."

def swiftBuildPathMissingText : Str :=
  chars "Install Error: Cannot install packages because SWIFT_BUILD_PATH is not specified."

def swiftPackagePathMissingText : Str :=
  chars "Install Error: Cannot install packages because SWIFT_PACKAGE_PATH is not specified."

def mixedPackagesText : Str :=
  chars "Cannot install SwiftPM packages at the same time with Bazel packages."

def joinCommaSep : List Str → Str
  | [] => []
  | [x] => x
  | x :: xs => x ++ chars ", " ++ joinCommaSep xs

def pyListRepr (l : List Str) : Str :=
  '[' :: joinCommaSep (l.map pyStrRepr) ++ [']']

def bazelExtraIncludeText (cmds : List Str) : Str :=
  chars "Cannot specify extra include commands " ++ pyListRepr cmds ++
    chars " for Bazel packages."

def bazelInstallLocationText (loc : Str) : Str :=
  chars "Cannot specify user install location " ++ loc ++ chars " for Bazel packages."

/-- One `%install` dependency spec: the substituted spec expression and the
product names. -/
structure Package where
  spec : Str
  products : List Str
deriving DecidableEq

/-- Translation of `_process_system_command_line`: a `%system` line raises
`PackageInstallException` once `self.debugger` exists; before boot it runs
the command synchronously, streams its combined output, and replaces the
line with an empty one. -/
def process_system_command_line (st : KernelState) (env : Env) (line : Str) :
    Except KernelException (Str × List Msg) :=
  match matchKeywordSpace kwSystem line with
  | none => .ok (line, [])
  | some restOfLine =>
    if st.hasDebugger then .error (.packageInstallException systemFirstCellText)
    else .ok ([], [Msg.stream stdoutName (env.shell restOfLine)])

/-- Translation of `_process_install_location_line`.  Its two `except`
handlers interpolate `line_index`, which is not defined in that function, so
a template error (`KeyError`/`ValueError`) escalates to a `NameError` that
no install-error handler catches; this is modelled as an internal fault. -/
def process_install_location_line (env : Env) (line : Str) :
    Except KernelException (Str × Option Str) :=
  match matchKeywordSpace kwInstallLocation line with
  | none => .ok (line, none)
  | some restOfLine =>
    match templateSub env.cwd restOfLine with
    | .error _ => .error (.internalFault nameErrorLineIndexText)
    | .ok installLocation => .ok ([], some installLocation)

/-- Translation of `_process_extra_include_command_line`. -/
def process_extra_include_command_line (line : Str) : Str × Option Str :=
  match matchKeywordSpace kwExtraIncludeCommand line with
  | none => (line, none)
  | some restOfLine => ([], some restOfLine)

/-- Translation of `_process_install_swiftpm_flags_line`.  A `shlex`
tokenizer `ValueError` propagates uncaught (an internal fault). -/
def process_install_swiftpm_flags_line (line : Str) :
    Except KernelException (Str × List Str) :=
  match matchKeywordSpace kwInstallSwiftPMFlags line with
  | none => .ok (line, [])
  | some restOfLine =>
    match shlexSplit restOfLine with
    | .error e => .error (.internalFault e)
    | .ok flags => .ok ([], flags)

/-- Translation of `_process_bazel_line`; as above, a tokenizer error is an
uncaught internal fault. -/
def process_bazel_line (line : Str) : Except KernelException (Str × List Str) :=
  match matchKeywordSpace kwBazel line with
  | none => .ok (line, [])
  | some restOfLine =>
    match shlexSplit restOfLine with
    | .error e => .error (.internalFault e)
    | .ok path => .ok ([], path)

/-- Translation of `_process_install_line`: tokenize the arguments (a
tokenizer error is an uncaught internal fault), require a spec and at least
one product, and substitute the `cwd` template variable in the spec
(template errors are caught and re-raised as `PackageInstallException`
here, where `line_index` is in scope). -/
def process_install_line (env : Env) (lineIndex : Nat) (line : Str) :
    Except KernelException (Str × List Package) :=
  match matchKeywordSpace kwInstall line with
  | none => .ok (line, [])
  | some restOfLine =>
    match shlexSplit restOfLine with
    | .error e => .error (.internalFault e)
    | .ok parsed =>
      match parsed with
      | [] => .error (.packageInstallException (installUsageText lineIndex))
      | [_] => .error (.packageInstallException (installUsageText lineIndex))
      | specTok :: products =>
        match templateSub env.cwd specTok with
        | .error (.keyError name) =>
          .error (.packageInstallException (invalidTemplateArgText lineIndex name))
        | .error .valueError =>
          .error (.packageInstallException (templateValueErrorText lineIndex))
        | .ok spec => .ok ([], [{ spec := spec, products := products }])

/-- Result of pushing one line through the chain of directive handlers in
`_process_installs`' loop body. -/
structure LineScan where
  out : Str
  pkgs : List Package
  flags : List Str
  bazelDeps : List Str
  extraInc : Option Str
  loc : Option Str
deriving DecidableEq

/-- The handler chain applied to one line, in the order of the loop body of
`_process_installs`: `%system`, `%install-location`,
`%install-swiftpm-flags`, `%install`, `%bazel`,
`%install-extra-include-command`. -/
def scanLine (st : KernelState) (env : Env) (lineIndex : Nat) (line : Str) :
    List Msg × Except KernelException LineScan :=
  match process_system_command_line st env line with
  | .error e => ([], .error e)
  | .ok (l1, msgs) =>
    (msgs,
      match process_install_location_line env l1 with
      | .error e => .error e
      | .ok (l2, loc) =>
        match process_install_swiftpm_flags_line l2 with
        | .error e => .error e
        | .ok (l3, flags) =>
          match process_install_line env lineIndex l3 with
          | .error e => .error e
          | .ok (l4, pkgs) =>
            match process_bazel_line l4 with
            | .error e => .error e
            | .ok (l5, bazelDeps) =>
              match process_extra_include_command_line l5 with
              | (l6, extraInc) =>
                .ok { out := l6, pkgs := pkgs, flags := flags,
                      bazelDeps := bazelDeps, extraInc := extraInc, loc := loc })

/-- The accumulators of `_process_installs`' loop. -/
structure InstallScan where
  processedLines : List Str
  pkgs : List Package
  flags : List Str
  bazelDeps : List Str
  extraIncs : List Str
  loc : Option Str
deriving DecidableEq

def emptyInstallScan : InstallScan :=
  { processedLines := [], pkgs := [], flags := [], bazelDeps := [], extraIncs := [],
    loc := none }

/-- Merge one processed line into the scan of the following lines.  The
extra-include command and install location are only recorded when truthy
(Python tests `if extra_include_command:` and `if install_location:`), and
since assignment in the ascending loop overwrites, the *last* truthy install
location wins. -/
def scanCombine (x : LineScan) (rest : InstallScan) : InstallScan :=
  { processedLines := x.out :: rest.processedLines,
    pkgs := x.pkgs ++ rest.pkgs,
    flags := x.flags ++ rest.flags,
    bazelDeps := x.bazelDeps ++ rest.bazelDeps,
    extraIncs :=
      (match x.extraInc with
       | some e => if e.isEmpty then [] else [e]
       | none => []) ++ rest.extraIncs,
    loc :=
      match rest.loc with
      | some l => some l
      | none =>
        match x.loc with
        | some l => if l.isEmpty then none else some l
        | none => none }

/-- The loop of `_process_installs`, indexed from `lineIndex`. -/
def scanLines (st : KernelState) (env : Env) (lineIndex : Nat) :
    List Str → List Msg × Except KernelException InstallScan
  | [] => ([], .ok emptyInstallScan)
  | l :: ls =>
    match scanLine st env lineIndex l with
    | (msgs, .error e) => (msgs, .error e)
    | (msgs, .ok x) =>
      match scanLines st env (lineIndex + 1) ls with
      | (msgs2, .error e) => (msgs ++ msgs2, .error e)
      | (msgs2, .ok rest) => (msgs ++ msgs2, .ok (scanCombine x rest))

/-- Boundary model of the external build interactions of
`_install_packages` (from the scratch-directory setup through the SwiftPM
build, artifact harvesting, `_init_swift` and `dlopen`) and of
`_install_bazel_deps` (after its first-cell check): each takes the state and
the collected directive data and yields the streamed messages and either a
`PackageInstallException`/internal fault or the post-installation state.
The checks preceding these opaque tails are translated in
`install_packages` and `install_bazel_deps` below. -/
structure InstallTails where
  swiftpm : KernelState → List Package → List Str → List Str → Option Str →
    List Msg × Except KernelException KernelState
  bazel : KernelState → List Str → List Msg × Except KernelException KernelState

/-- Translation of the checked part of `_install_packages`: no-op on an
empty request, fail once the evaluator has booted, fail when
`SWIFT_BUILD_PATH` or `SWIFT_PACKAGE_PATH` is unset, and otherwise hand off
to the external build tail. -/
def install_packages (env : Env) (tails : InstallTails) (st : KernelState)
    (packages : List Package) (swiftpmFlags : List Str)
    (extraIncludeCommands : List Str) (userInstallLocation : Option Str) :
    List Msg × Except KernelException KernelState :=
  if packages.isEmpty && swiftpmFlags.isEmpty then ([], .ok st)
  else if st.hasDebugger then
    ([], .error (.packageInstallException installFirstCellText))
  else
    match env.envVars (chars "SWIFT_BUILD_PATH") with
    | none => ([], .error (.packageInstallException swiftBuildPathMissingText))
    | some _ =>
      match env.envVars (chars "SWIFT_PACKAGE_PATH") with
      | none => ([], .error (.packageInstallException swiftPackagePathMissingText))
      | some _ =>
        tails.swiftpm st packages swiftpmFlags extraIncludeCommands
          userInstallLocation

/-- Translation of the checked part of `_install_bazel_deps`. -/
def install_bazel_deps (tails : InstallTails) (st : KernelState)
    (packages : List Str) : List Msg × Except KernelException KernelState :=
  if packages.isEmpty then ([], .ok st)
  else if st.hasDebugger then
    ([], .error (.packageInstallException installFirstCellText))
  else tails.bazel st packages

/-- Translation of `_process_installs`: scan every line through the handler
chain, then dispatch on the collected effects — SwiftPM specs or flags go to
`install_packages` (mixing with Bazel deps is an error), Bazel deps go to
`install_bazel_deps` (extra include commands or an install location are an
error there) — and return the rewritten text. -/
def process_installs (st : KernelState) (env : Env) (tails : InstallTails)
    (code : Str) : List Msg × Except KernelException (Str × KernelState) :=
  match scanLines st env 0 (pySplitLines code) with
  | (msgs, .error e) => (msgs, .error e)
  | (msgs, .ok scan) =>
    if !scan.pkgs.isEmpty || !scan.flags.isEmpty then
      if !scan.bazelDeps.isEmpty then
        (msgs, .error (.packageInstallException mixedPackagesText))
      else
        match install_packages env tails st scan.pkgs scan.flags scan.extraIncs
            scan.loc with
        | (msgs2, .error e) => (msgs ++ msgs2, .error e)
        | (msgs2, .ok st2) =>
          (msgs ++ msgs2, .ok (joinNL scan.processedLines, st2))
    else if !scan.bazelDeps.isEmpty then
      if !scan.extraIncs.isEmpty then
        (msgs, .error (.packageInstallException (bazelExtraIncludeText scan.extraIncs)))
      else
        match scan.loc with
        | some l =>
          (msgs, .error (.packageInstallException (bazelInstallLocationText l)))
        | none =>
          match install_bazel_deps tails st scan.bazelDeps with
          | (msgs2, .error e) => (msgs ++ msgs2, .error e)
          | (msgs2, .ok st2) =>
            (msgs ++ msgs2, .ok (joinNL scan.processedLines, st2))
    else (msgs, .ok (joinNL scan.processedLines, st))

/-- Boundary model of what the out-of-process evaluator does during one
execute request: the cell's evaluation outcome, whether the
parent-message and after-success service calls behave (they raise reported
internal faults otherwise), the display messages pushed by
`triggerAfterSuccessfulExecution`, the stdout drained by the pump (one
entry per drain pass), the stopped thread's frames, whether the child
process is still alive when the reply phase inspects it, and whether
`_init_swift` succeeds. -/
structure EvalOracle where
  evalCell : EvalOutcome
  parentMessageOk : Bool
  afterSuccessValue : Bool
  displayMsgs : List Msg
  stdoutChunks : List Str
  frames : List Frame
  processAlive : Bool
  bootOk : Bool

/-- `stdout_handler.had_stdout`: set when any drain pass yielded text. -/
def hadStdoutFlag (chunks : List Str) : Bool := chunks.any (fun c => !c.isEmpty)

/-- The messages forwarded by the stdout pump: every nonempty drain pass is
pushed through `_send_stdout`. -/
def pumpMsgs (chunks : List Str) : List Msg :=
  ((chunks.filter (fun c => !c.isEmpty)).map send_stdout).flatten

/-- Translation of `_preprocess_and_execute`: preprocessing failures with
`PreprocessorException` become a `PreprocessorError` result; otherwise the
rewritten text is submitted to the evaluator. -/
def preprocess_and_execute (env : Env) (o : EvalOracle) (st : KernelState)
    (code : Str) : List Msg × KernelState × Except KernelException ExecutionResult :=
  match preprocess env st code with
  | (msgs, st1, .error (.preprocessorException e)) =>
    (msgs, st1, .ok (.preprocessorError e))
  | (msgs, st1, .error e) => (msgs, st1, .error e)
  | (msgs, st1, .ok _rewritten) => (msgs, st1, .ok (executeFragment o.evalCell))

/-- Translation of `_execute_cell`: set the parent message (a failing
service call raises), evaluate, and on success run
`_after_successful_execution`, which forwards the display messages read
from the evaluator when the trigger call produced a value. -/
def execute_cell (env : Env) (o : EvalOracle) (st : KernelState) (code : Str) :
    List Msg × KernelState × Except KernelException ExecutionResult :=
  if !o.parentMessageOk then
    ([], st, .error (.internalFault (chars "Error setting parent message")))
  else
    match preprocess_and_execute env o st code with
    | (msgs, st1, .error e) => (msgs, st1, .error e)
    | (msgs, st1, .ok r) =>
      if r.isSuccess then
        (msgs ++ (if o.afterSuccessValue then o.displayMsgs else []), st1, .ok r)
      else (msgs, st1, .ok r)

/-- Outcome of one `do_execute` call: a reply handed back to the host
(with the resulting state and whether kernel shutdown was scheduled), or an
exception re-raised through the request boundary after the bad-state report
was published. -/
inductive DoExecuteOutcome where
  | reply (r : Reply) (st : KernelState) (exitScheduled : Bool)
  | raised (excMsg : Str) (st : KernelState)
deriving DecidableEq

/-- The traceback published by `_send_exception_report`. -/
def badStateTraceback (phase excMsg : Str) : List Str :=
  [chars "Kernel is in a bad state. Try restarting the kernel.", [],
   chars "Exception in `" ++ phase ++ chars "`:", excMsg]

/-- The effect of `_init_swift` on the modelled state: the debugger now
exists and completion is enabled exactly when the toolchain has the
`CompleteCode` API.  The process and service-call setup is at the evaluator
boundary. -/
def init_swift (env : Env) (st : KernelState) : KernelState :=
  { st with hasDebugger := true, completionEnabled := env.hasCompleteCodeAPI }

/-- Translation of `do_execute`.  Blank submissions return ok immediately;
`%install` handling runs next, with `PackageInstallException` converted to a
single error reply and any other exception reported as a bad-state error
and re-raised; the evaluator then boots if it has not yet (uncaught on
failure); finally the cell is executed under the stdout pump and the reply
phase classifies the result.  Pump messages are concurrent with the cell's
own messages in reality; the model orders them after the cell's and before
the reply phase's (the pump is always joined before classification). -/
def do_execute (st : KernelState) (env : Env) (o : EvalOracle)
    (tails : InstallTails) (code : Str) : List Msg × DoExecuteOutcome :=
  if pyIsBlank code then ([], .reply (.ok st.executionCount) st false)
  else
    match process_installs st env tails code with
    | (imsgs, .error (.packageInstallException m)) =>
      (imsgs ++ [Msg.errorMsg st.executionCount [m]],
       .reply (.error st.executionCount [m]) st false)
    | (imsgs, .error e) =>
      (imsgs ++ [Msg.errorMsg st.executionCount
          (badStateTraceback (chars "_process_installs") e.pyStr)],
       .raised e.pyStr st)
    | (imsgs, .ok (code2, st1)) =>
      if !st1.hasDebugger && !o.bootOk then
        (imsgs, .raised (chars "_init_swift failure") st1)
      else
        let st2 := if st1.hasDebugger then st1 else init_swift env st1
        let pump := pumpMsgs o.stdoutChunks
        match execute_cell env o st2 code2 with
        | (cmsgs, st3, .error e) =>
          (imsgs ++ cmsgs ++ pump ++ [Msg.errorMsg st3.executionCount
              (badStateTraceback (chars "_execute_cell") e.pyStr)],
           .raised e.pyStr st3)
        | (cmsgs, st3, .ok result) =>
          match do_execute_respond st3 o.processAlive (hadStdoutFlag o.stdoutChunks)
              o.frames result with
          | (rmsgs, reply, exitScheduled) =>
            (imsgs ++ cmsgs ++ pump ++ rmsgs, .reply reply st3 exitScheduled)

/-- A sequence of execute requests against one session, threading the
state; a raised exception ends the session (the host process dies). -/
def do_execute_session (env : Env) (o : EvalOracle) (tails : InstallTails) :
    KernelState → List Str → KernelState
  | st, [] => st
  | st, code :: rest =>
    match (do_execute st env o tails code).2 with
    | .reply _ st2 _ => do_execute_session env o tails st2 rest
    | .raised _ st2 => st2

/-- Boundary model of the `SBCompletionResponse` returned by
`SBTarget.CompleteCode`. -/
structure CompletionResponse where
  prefixChars : Str
  insertables : List Str

/-- The reply dict of `do_complete` (its `status` field is the constant
`'ok'` in both branches and is omitted). -/
structure CompleteReply where
  matchList : List Str
  cursorStart : Int
  cursorEnd : Int
deriving DecidableEq

/-- Translation of `do_complete`: when completion is disabled, an empty
match list spanning the cursor position; otherwise the evaluator's matches,
each prefixed and filtered to drop those starting with an underscore, with
`cursor_start` backed up by the length of the completion prefix. -/
def do_complete (st : KernelState) (resp : CompletionResponse) (code : Str)
    (cursorPos : Nat) : CompleteReply :=
  if !st.completionEnabled then
    { matchList := [], cursorStart := (cursorPos : Int), cursorEnd := (cursorPos : Int) }
  else
    let insertableMatches :=
      (resp.insertables.map (fun m => resp.prefixChars ++ m)).filter
        (fun m => !listStartsWith (chars "_") m)
    { matchList := insertableMatches,
      cursorStart := (cursorPos : Int) - resp.prefixChars.length,
      cursorEnd := (cursorPos : Int) }

def KernelException.isPreprocessorException : KernelException → Bool
  | .preprocessorException _ => true
  | _ => false

/-- Concrete environment for witnesses: empty filesystem, a shell that
prints `OUT`, no environment variables. -/
def trivialEnv : Env :=
  { scriptDir := chars "/kernel", cwd := chars "/work", fs := fun _ => none,
    shell := fun _ => chars "OUT\n", envVars := fun _ => none,
    hasCompleteCodeAPI := false }

/-- Concrete oracle for witnesses: evaluation succeeds without a value and
produces no output. -/
def trivialOracle : EvalOracle :=
  { evalCell := .noValue, parentMessageOk := true, afterSuccessValue := true,
    displayMsgs := [], stdoutChunks := [], frames := [], processAlive := true,
    bootOk := true }

/-- Concrete install tails for witnesses: the external builds are no-ops. -/
def trivialTails : InstallTails :=
  { swiftpm := fun st _ _ _ _ => ([], .ok st), bazel := fun st _ => ([], .ok st) }

/-- A session state in which the evaluator has already booted. -/
def bootedState : KernelState :=
  { hasDebugger := true, completionEnabled := true, executionCount := 1 }

/-- C1: a `Diagnostic` outcome (a `SwiftError` result) observed while the
child process is no longer alive is always classified as fatal, for either
value of `hadStdout`: the kernel publishes an error message whose traceback
is exactly `["Process killed"]` (no stack trace), returns that same error
reply, and schedules kernel termination on the io loop so that the reply
flushes first. -/
theorem c1_diagnostic_dead_process_is_fatal (st : KernelState) (hadStdout : Bool)
    (frames : List Frame) (d : Str) :
    do_execute_respond st false hadStdout frames (.swiftError d) =
      ([Msg.errorMsg st.executionCount [processKilledText]],
       Reply.error st.executionCount [processKilledText], true) := rfl

/-- C2 (code bug): on the repository's own test fixture `let x = 2; x`,
whose evaluation produces a value described as `"2\n"`, the kernel does not
put the value description into the `execute_result` data: it sends the fixed
placeholder text `"Use `print()` to show values.\n"` (the `TODO(#112)`
workaround), which differs from the description expected by the claim and by
`code_execute_result` in the test suite.  The ok reply itself is returned as
claimed. -/
theorem c2_execute_result_placeholder_bug :
    do_execute_respond bootedState true false [] (.successWithValue (chars "2\n")) =
      ([Msg.executeResult 1 usePrintText], Reply.ok 1, false) ∧
    usePrintText ≠ chars "2\n" := by
  decide

/-- C3 (counterexample): a diagnostic with the process alive and output
observed produces an error reply whose traceback is the synthesized stack
trace only — the diagnostic text `"err"` is *not* shown in the reply
(it was already delivered through the stdout stream), contradicting the
claim that the error reply shows the diagnostic text plus the call stack. -/
theorem c3_counterexample :
    do_execute_respond bootedState true true [] (.swiftError (chars "err")) =
      ([Msg.errorMsg 1 [currentStackTraceHeader]],
       Reply.error 1 [currentStackTraceHeader], false) ∧
    chars "err" ∉ [currentStackTraceHeader] := by
  decide

theorem pretty_stack_eq_filter (frames : List Frame) :
    pretty_main_thread_stack_trace frames =
      (frames.filter
        (fun f => f.hasFileInfo && !(f.fullpath == chars "<compiler-generated>"))).map
        Frame.displayStr := by
  induction frames with
  | nil => rfl
  | cons f fs ih =>
    rcases hf : f.hasFileInfo with _ | _
    · simp [pretty_main_thread_stack_trace, List.filter, hf, ih]
    · rcases hp : f.fullpath == chars "<compiler-generated>" with _ | _
      · have hne : ¬(f.fullpath = chars "<compiler-generated>") := by
          intro hc
          rw [hc] at hp
          simp at hp
        simp only [pretty_main_thread_stack_trace, List.filter, hf, hp, if_neg hne,
          Bool.not_false, Bool.and_true, Bool.not_true, Bool.false_eq_true, if_false,
          Bool.true_eq_false, List.map_cons]
        rw [ih]
        split
        · rename_i hcase
          exact absurd hcase hne
        · rfl
      · have heq : f.fullpath = chars "<compiler-generated>" := beq_iff_eq.mp hp
        simp only [pretty_main_thread_stack_trace, List.filter, hf, hp, if_pos heq,
          Bool.not_true, Bool.and_false, Bool.false_eq_true, if_false,
          Bool.true_eq_false]
        rw [ih]
        split
        · rfl
        · rename_i hcase
          exact absurd heq hcase

/-- C3 (amended): with the process alive, a diagnostic with no observed
output is reported with the diagnostic text as the only traceback line (no
stack trace); a diagnostic with observed output is reported with a
traceback consisting of the `Current stack trace:` header followed by the
tab-indented synthesized frames — filtered to drop frames without
source-location information and `<compiler-generated>` frames — and
*without* the diagnostic text, which has already been streamed to the
client as stdout. -/
theorem c3_diagnostic_traceback_shape (st : KernelState) (frames : List Frame)
    (d : Str) :
    do_execute_respond st true false frames (.swiftError d) =
      ([Msg.errorMsg st.executionCount [d]],
       Reply.error st.executionCount [d], false) ∧
    do_execute_respond st true true frames (.swiftError d) =
      ([Msg.errorMsg st.executionCount (currentStackTraceHeader ::
          ((frames.filter
            (fun f => f.hasFileInfo && !(f.fullpath == chars "<compiler-generated>"))).map
            Frame.displayStr).map (fun f => '\t' :: f))],
       Reply.error st.executionCount (currentStackTraceHeader ::
          ((frames.filter
            (fun f => f.hasFileInfo && !(f.fullpath == chars "<compiler-generated>"))).map
            Frame.displayStr).map (fun f => '\t' :: f)), false) := by
  refine ⟨rfl, ?_⟩
  have h2 : do_execute_respond st true true frames (.swiftError d) =
      ([Msg.errorMsg st.executionCount (currentStackTraceHeader ::
          (pretty_main_thread_stack_trace frames).map (fun f => '	' :: f))],
       Reply.error st.executionCount (currentStackTraceHeader ::
          (pretty_main_thread_stack_trace frames).map (fun f => '	' :: f)), false) := rfl
  rw [h2, pretty_stack_eq_filter]

/-- C8: every stdout chunk is forwarded as its clear-sequence-free segments
interleaved, in order, with one `clear_output` message per embedded clear
sequence: the messages are exactly the segments (as stream messages) with
`clear_output(wait := False)` interspersed, the segments joined by the clear
sequence rebuild the chunk, and the number of `clear_output` messages is
the number of (leftmost-first) embedded sequences, i.e. one less than the
number of segments. -/
theorem c8_clear_sequence_split (s : Str) :
    send_stdout s =
      List.intersperse (Msg.clearOutput false)
        ((splitClear s).map (Msg.stream stdoutName)) ∧
    joinClear (splitClear s) = s ∧
    (send_stdout s).count (Msg.clearOutput false) = (splitClear s).length - 1 := by
  refine ⟨send_stdout_intersperse s, joinClear_splitClear s, ?_⟩
  rw [send_stdout_intersperse s]
  rw [count_clear_intersperse]
  · simp
  · intro x hx
    obtain ⟨seg, _, hseg⟩ := List.mem_map.mp hx
    rw [← hseg]
    simp

/-- C10: completion is disabled in the state built by `__init__`; whenever
it is disabled, `do_complete` replies with an empty match list and with
`cursor_start` and `cursor_end` both equal to the requested cursor position
(an ok reply), for every code string and cursor position; and a
`%disableCompletion` directive line sets the flag to disabled (so the same
reply shape holds afterwards). -/
theorem c10_complete_disabled (st : KernelState) (resp : CompletionResponse)
    (code : Str) (cursorPos : Nat) :
    initialKernelState.completionEnabled = false ∧
    (st.completionEnabled = false →
      do_complete st resp code cursorPos =
        { matchList := [], cursorStart := (cursorPos : Int),
          cursorEnd := (cursorPos : Int) }) ∧
    (∀ env lineIndex, preprocess_line env st lineIndex (chars "%disableCompletion") =
      .ok ([], { st with completionEnabled := false },
        [Msg.stream stdoutName completionDisabledText])) := by
  refine ⟨rfl, ?_, fun env lineIndex => rfl⟩
  intro h
  simp [do_complete, h]

theorem c10_complete_disabled_witness :
    do_complete initialKernelState
        { prefixChars := chars "pre", insertables := [chars "f()"] } (chars "ab") 2 =
      { matchList := [], cursorStart := (2 : Int), cursorEnd := (2 : Int) } :=
  (c10_complete_disabled initialKernelState
    { prefixChars := chars "pre", insertables := [chars "f()"] } (chars "ab") 2).2.1 rfl

theorem do_execute_session_blank (env : Env) (o : EvalOracle) (tails : InstallTails) :
    ∀ (codes : List Str) (st : KernelState),
      (∀ c ∈ codes, pyIsBlank c = true) → do_execute_session env o tails st codes = st := by
  intro codes
  induction codes with
  | nil => intro st _; rfl
  | cons c rest ih =>
    intro st h
    have hc : pyIsBlank c = true := h c (List.mem_cons_self _ _)
    have hstep : do_execute st env o tails c = ([], .reply (.ok st.executionCount) st false) := by
      rw [do_execute, if_pos hc]
    rw [do_execute_session, hstep]
    exact ih st (fun x hx => h x (List.mem_cons_of_mem _ hx))

/-- C5: an empty or whitespace-only submission is answered immediately with
an ok reply carrying the current execution count, with no messages
published, no state change, no installation and no evaluator boot; and a
session fed any number of blank submissions ends in exactly the state it
started in. -/
theorem c5_blank_submissions (st : KernelState) (env : Env) (o : EvalOracle)
    (tails : InstallTails) (code : Str) (codes : List Str) :
    (pyIsBlank code = true →
      do_execute st env o tails code =
        ([], .reply (.ok st.executionCount) st false)) ∧
    ((∀ c ∈ codes, pyIsBlank c = true) →
      do_execute_session env o tails st codes = st) := by
  constructor
  · intro h
    rw [do_execute, if_pos h]
  · exact do_execute_session_blank env o tails codes st

theorem c5_blank_submissions_witness :
    do_execute initialKernelState trivialEnv trivialOracle trivialTails (chars " \n\t") =
      ([], .reply (.ok 0) initialKernelState false) ∧
    do_execute_session trivialEnv trivialOracle trivialTails initialKernelState
      [chars "", chars "  ", chars "\n\n\n"] = initialKernelState := by
  constructor
  · exact (c5_blank_submissions initialKernelState trivialEnv trivialOracle trivialTails
      (chars " \n\t") []).1 (by decide)
  · exact (c5_blank_submissions initialKernelState trivialEnv trivialOracle trivialTails
      (chars "") [chars "", chars "  ", chars "\n\n\n"]).2 (by decide)

/-- C7 (counterexample): a `%system` directive arriving after the evaluator
has booted fails with `PackageInstallException('System commands can only run
in the first cell.')` — an install-phase error, not a preprocessing error as
the claim states. -/
theorem c7_counterexample :
    process_system_command_line bootedState trivialEnv (chars "%system ls") =
      .error (.packageInstallException systemFirstCellText) ∧
    (KernelException.packageInstallException systemFirstCellText).isPreprocessorException
      = false := by
  decide

/-- C7 (amended): for every `%system CMD` directive line, if the evaluator
has not yet booted the command is run synchronously through the shell, its
combined output is forwarded as one stream message and the directive line is
replaced by an empty line in the rewritten text; if the evaluator has
already booted the directive fails with a `PackageInstallException`
(caught at the request boundary like other install errors), not a
`PreprocessorException`. -/
theorem c7_system_directive (st : KernelState) (env : Env) (line restOfLine : Str)
    (h : matchKeywordSpace kwSystem line = some restOfLine) :
    (st.hasDebugger = false →
      process_system_command_line st env line =
        .ok ([], [Msg.stream stdoutName (env.shell restOfLine)])) ∧
    (st.hasDebugger = true →
      process_system_command_line st env line =
        .error (.packageInstallException systemFirstCellText)) := by
  constructor <;> intro hd <;> simp [process_system_command_line, h, hd]

theorem c7_system_directive_witness :
    process_system_command_line initialKernelState trivialEnv (chars "%system ls") =
      .ok ([], [Msg.stream stdoutName (trivialEnv.shell (chars "ls"))]) ∧
    process_system_command_line bootedState trivialEnv (chars "%system ls") =
      .error (.packageInstallException systemFirstCellText) :=
  ⟨(c7_system_directive initialKernelState trivialEnv (chars "%system ls")
      (chars "ls") (by decide)).1 rfl,
   (c7_system_directive bootedState trivialEnv (chars "%system ls")
      (chars "ls") (by decide)).2 rfl⟩

/-- Environment in which `f.swift` exists both in the kernel's script
directory (with contents `AAA`) and in the working directory (with contents
`BBB`). -/
def dualFileEnv : Env :=
  { trivialEnv with fs := fun p =>
      if p = (chars "/kernel/f.swift") then some (chars "AAA")
      else if p = (chars "/work/f.swift") then some (chars "BBB") else none }

/-- C6 (counterexample): when the included file exists in both search
directories, `_read_include` uses the *working-directory* copy (`BBB`), not
the kernel-installation-directory copy (`AAA`) that the claim's first-match
rule would pick: the search loop has no `break`, so the last successful open
wins. -/
theorem c6_counterexample :
    read_include dualFileEnv 1 0 (chars "\"f.swift\"") =
      .ok (joinNL [sourceLocationTo (chars "f.swift") 1, chars "BBB",
        sourceLocationTo (cellFileName 1) 1, []]) ∧
    read_include dualFileEnv 1 0 (chars "\"f.swift\"") ≠
      .ok (joinNL [sourceLocationTo (chars "f.swift") 1, chars "AAA",
        sourceLocationTo (cellFileName 1) 1, []]) := by
  decide

/-- C6 (amended): `%include` resolution searches the kernel's installation
directory and then the current working directory, but keeps the contents of
the *last* directory in that order where the file exists (the working
directory shadows the installation directory when the file exists in both);
it fails with a `PreprocessorException` if the argument is not a single
properly quoted name, or if the file is found in neither directory.  On
success the directive line is replaced by the file's contents wrapped in
sourceLocation markers. -/
theorem c6_include_resolution (env : Env) (executionCount lineIndex : Nat)
    (restOfLine : Str) :
    (parseQuotedName restOfLine = none →
      read_include env executionCount lineIndex restOfLine =
        .error (.preprocessorException (msgMustQuote lineIndex))) ∧
    (∀ name, parseQuotedName restOfLine = some name →
      read_include env executionCount lineIndex restOfLine =
        match env.fs (pathJoin env.cwd name), env.fs (pathJoin env.scriptDir name) with
        | some contents, _ =>
          .ok (joinNL [sourceLocationTo name 1, contents,
            sourceLocationTo (cellFileName executionCount) (lineIndex + 1), []])
        | none, some contents =>
          .ok (joinNL [sourceLocationTo name 1, contents,
            sourceLocationTo (cellFileName executionCount) (lineIndex + 1), []])
        | none, none =>
          .error (.preprocessorException
            (msgIncludeNotFound lineIndex name env.scriptDir env.cwd))) := by
  constructor
  · intro h
    simp [read_include, h]
  · intro name h
    simp only [read_include, h]
    rcases hcwd : env.fs (pathJoin env.cwd name) with _ | c1 <;>
      rcases hsd : env.fs (pathJoin env.scriptDir name) with _ | c2 <;>
        simp [List.foldl, hcwd, hsd]

theorem c6_include_resolution_witness :
    read_include dualFileEnv 1 0 (chars "\"f.swift\"") =
      .ok (joinNL [sourceLocationTo (chars "f.swift") 1, chars "BBB",
        sourceLocationTo (cellFileName 1) 1, []]) ∧
    read_include trivialEnv 1 2 (chars "g.swift") =
      .error (.preprocessorException (msgMustQuote 2)) ∧
    read_include trivialEnv 1 2 (chars "\"g.swift\"") =
      .error (.preprocessorException
        (msgIncludeNotFound 2 (chars "g.swift") (chars "/kernel") (chars "/work"))) := by
  refine ⟨?_, ?_, ?_⟩
  · have h := (c6_include_resolution dualFileEnv 1 0 (chars "\"f.swift\"")).2
      (chars "f.swift") (by decide)
    rw [h]
    decide
  · exact (c6_include_resolution trivialEnv 1 2 (chars "g.swift")).1 (by decide)
  · have h := (c6_include_resolution trivialEnv 1 2 (chars "\"g.swift\"")).2
      (chars "g.swift") (by decide)
    rw [h]
    decide

theorem preprocess_line_passthrough (env : Env) (st : KernelState) (lineIndex : Nat)
    (l : Str) (h : isPreprocessorDirectiveLine l = false) :
    preprocess_line env st lineIndex l = .ok (l, st, []) := by
  simp only [isPreprocessorDirectiveLine, Bool.or_eq_false_iff] at h
  obtain ⟨⟨h1, h2⟩, h3⟩ := h
  rcases hm : matchKeywordSpace kwInclude l with _ | r
  · simp [preprocess_line, hm, h2, h3]
  · rw [hm] at h1
    simp at h1

theorem preprocess_lines_passthrough (env : Env) (st : KernelState) :
    ∀ (ls : List Str) (lineIndex : Nat),
      (∀ l ∈ ls, isPreprocessorDirectiveLine l = false) →
      preprocess_lines env st lineIndex ls = ([], st, .ok ls) := by
  intro ls
  induction ls with
  | nil => intro i _; rfl
  | cons l rest ih =>
    intro i h
    have hl := preprocess_line_passthrough env st i l (h l (List.mem_cons_self _ _))
    have hrest := ih (i + 1) (fun x hx => h x (List.mem_cons_of_mem _ hx))
    simp [preprocess_lines, hl, hrest]

/-- C9: a submission in which no line is recognized by the preprocessor as a
directive (`%include`, `%disableCompletion`, `%enableCompletion`) passes
through `_preprocess` unchanged — the rewritten text equals the input, no
messages are sent, and the session state is untouched. -/
theorem c9_preprocess_passthrough (env : Env) (st : KernelState) (code : Str)
    (h : ∀ l ∈ pySplitLines code, isPreprocessorDirectiveLine l = false) :
    preprocess env st code = ([], st, .ok code) := by
  have hlines := preprocess_lines_passthrough env st (pySplitLines code) 0 h
  simp only [preprocess, hlines]
  rw [joinNL_pySplitLines]

theorem c9_preprocess_passthrough_witness :
    preprocess trivialEnv bootedState (chars "let x = 1\nprint(x)") =
      ([], bootedState, .ok (chars "let x = 1\nprint(x)")) :=
  c9_preprocess_passthrough trivialEnv bootedState (chars "let x = 1\nprint(x)")
    (by decide)

def isInternalFaultResult {α : Type} : Except KernelException α → Bool
  | .error (.internalFault _) => true
  | _ => false

theorem matchKeywordSpace_nil (kw : Str) : matchKeywordSpace kw [] = none := by
  cases kw <;> rfl

theorem not_install_of_location (r : Str) :
    listStartsWith (kwInstall ++ [' ']) ((kwInstallLocation ++ [' ']) ++ r) = false := rfl

theorem not_install_of_flags (r : Str) :
    listStartsWith (kwInstall ++ [' ']) ((kwInstallSwiftPMFlags ++ [' ']) ++ r) = false :=
  rfl

theorem matchInstall_none_of_location {l r : Str}
    (h : matchKeywordSpace kwInstallLocation l = some r) :
    matchKeywordSpace kwInstall l = none := by
  have hd := matchKeywordSpace_eq_some h
  simp only [matchKeywordSpace]
  rw [hd, not_install_of_location]
  simp

theorem matchInstall_none_of_flags {l r : Str}
    (h : matchKeywordSpace kwInstallSwiftPMFlags l = some r) :
    matchKeywordSpace kwInstall l = none := by
  have hd := matchKeywordSpace_eq_some h
  simp only [matchKeywordSpace]
  rw [hd, not_install_of_flags]
  simp

theorem scanLine_booted_classify (st : KernelState) (env : Env)
    (hD : st.hasDebugger = true) (i : Nat) (l : Str)
    (hnf : isInternalFaultResult (scanLine st env i l).2 = false) :
    (∃ m, scanLine st env i l = ([], .error (.packageInstallException m))) ∨
    (∃ x, scanLine st env i l = ([], .ok x) ∧
      ((matchKeywordSpace kwInstall l).isSome = true → x.pkgs ≠ [])) := by
  rcases hsys : matchKeywordSpace kwSystem l with _ | rsys
  case some =>
    left
    refine ⟨systemFirstCellText, ?_⟩
    simp [scanLine, process_system_command_line, hsys, hD]
  case none =>
  have hsys2 : process_system_command_line st env l = .ok (l, []) := by
    simp [process_system_command_line, hsys]
  rcases hloc : matchKeywordSpace kwInstallLocation l with _ | rloc
  case some =>
    rcases htmpl : templateSub env.cwd rloc with e | loc
    · exfalso
      have hcontra : isInternalFaultResult (scanLine st env i l).2 = true := by
        simp [scanLine, hsys2, process_install_location_line, hloc, htmpl,
          isInternalFaultResult]
      rw [hcontra] at hnf
      exact Bool.noConfusion hnf
    · have heq : scanLine st env i l =
          ([], .ok { out := [], pkgs := [], flags := [], bazelDeps := [], extraInc := none, loc := some loc }) := by
        simp only [scanLine, hsys2]
        simp only [process_install_location_line, hloc, htmpl]
        simp only [process_install_swiftpm_flags_line, matchKeywordSpace_nil]
        simp only [process_install_line, matchKeywordSpace_nil]
        simp only [process_bazel_line, matchKeywordSpace_nil]
        simp only [process_extra_include_command_line, matchKeywordSpace_nil]
      right
      refine ⟨_, heq, ?_⟩
      rw [matchInstall_none_of_location hloc]
      intro hcontra
      simp at hcontra
  case none =>
  have hloc2 : process_install_location_line env l = .ok (l, none) := by
    simp [process_install_location_line, hloc]
  rcases hflags : matchKeywordSpace kwInstallSwiftPMFlags l with _ | rflags
  case some =>
    rcases hshlex : shlexSplit rflags with e | toks
    · exfalso
      have hcontra : isInternalFaultResult (scanLine st env i l).2 = true := by
        simp [scanLine, hsys2, hloc2, process_install_swiftpm_flags_line, hflags,
          hshlex, isInternalFaultResult]
      rw [hcontra] at hnf
      exact Bool.noConfusion hnf
    · have heq : scanLine st env i l =
          ([], .ok { out := [], pkgs := [], flags := toks, bazelDeps := [], extraInc := none, loc := none }) := by
        simp only [scanLine, hsys2, hloc2]
        simp only [process_install_swiftpm_flags_line, hflags, hshlex]
        simp only [process_install_line, matchKeywordSpace_nil]
        simp only [process_bazel_line, matchKeywordSpace_nil]
        simp only [process_extra_include_command_line, matchKeywordSpace_nil]
      right
      refine ⟨_, heq, ?_⟩
      rw [matchInstall_none_of_flags hflags]
      intro hcontra
      simp at hcontra
  case none =>
  have hflags2 : process_install_swiftpm_flags_line l = .ok (l, []) := by
    simp [process_install_swiftpm_flags_line, hflags]
  rcases hinst : matchKeywordSpace kwInstall l with _ | rinst
  case some =>
    rcases hshlex : shlexSplit rinst with e | toks
    · exfalso
      have hcontra : isInternalFaultResult (scanLine st env i l).2 = true := by
        simp [scanLine, hsys2, hloc2, hflags2, process_install_line, hinst, hshlex,
          isInternalFaultResult]
      rw [hcontra] at hnf
      exact Bool.noConfusion hnf
    · rcases toks with _ | ⟨specTok, products⟩
      · left
        refine ⟨installUsageText i, ?_⟩
        simp [scanLine, hsys2, hloc2, hflags2, process_install_line, hinst, hshlex]
      · rcases products with _ | ⟨p1, prest⟩
        · left
          refine ⟨installUsageText i, ?_⟩
          simp [scanLine, hsys2, hloc2, hflags2, process_install_line, hinst, hshlex]
        · rcases htmpl : templateSub env.cwd specTok with e | spec
          · rcases e with name | _
            · left
              refine ⟨invalidTemplateArgText i name, ?_⟩
              simp [scanLine, hsys2, hloc2, hflags2, process_install_line, hinst,
                hshlex, htmpl]
            · left
              refine ⟨templateValueErrorText i, ?_⟩
              simp [scanLine, hsys2, hloc2, hflags2, process_install_line, hinst,
                hshlex, htmpl]
          · have heq : scanLine st env i l =
                ([], .ok { out := [], pkgs := [{ spec := spec, products := p1 :: prest }], flags := [], bazelDeps := [], extraInc := none, loc := none }) := by
              simp only [scanLine, hsys2, hloc2, hflags2]
              simp only [process_install_line, hinst, hshlex, htmpl]
              simp only [process_bazel_line, matchKeywordSpace_nil]
              simp only [process_extra_include_command_line, matchKeywordSpace_nil]
            right
            refine ⟨_, heq, ?_⟩
            intro _
            simp
  case none =>
  have hinst2 : process_install_line env i l = .ok (l, []) := by
    simp [process_install_line, hinst]
  rcases hbaz : matchKeywordSpace kwBazel l with _ | rbaz
  case some =>
    rcases hshlex : shlexSplit rbaz with e | toks
    · exfalso
      have hcontra : isInternalFaultResult (scanLine st env i l).2 = true := by
        simp [scanLine, hsys2, hloc2, hflags2, hinst2, process_bazel_line, hbaz,
          hshlex, isInternalFaultResult]
      rw [hcontra] at hnf
      exact Bool.noConfusion hnf
    · have heq : scanLine st env i l =
          ([], .ok { out := [], pkgs := [], flags := [], bazelDeps := toks, extraInc := none, loc := none }) := by
        simp only [scanLine, hsys2, hloc2, hflags2, hinst2]
        simp only [process_bazel_line, hbaz, hshlex]
        simp only [process_extra_include_command_line, matchKeywordSpace_nil]
      right
      refine ⟨_, heq, ?_⟩
      intro hcontra
      simp at hcontra
  case none =>
  have hbaz2 : process_bazel_line l = .ok (l, []) := by
    simp [process_bazel_line, hbaz]
  rcases hext : matchKeywordSpace kwExtraIncludeCommand l with _ | rext
  case some =>
    have heq : scanLine st env i l =
        ([], .ok { out := [], pkgs := [], flags := [], bazelDeps := [], extraInc := some rext, loc := none }) := by
      simp only [scanLine, hsys2, hloc2, hflags2, hinst2, hbaz2]
      simp only [process_extra_include_command_line, hext]
    right
    refine ⟨_, heq, ?_⟩
    intro hcontra
    simp at hcontra
  case none =>
  have heq : scanLine st env i l =
      ([], .ok { out := l, pkgs := [], flags := [], bazelDeps := [], extraInc := none, loc := none }) := by
    simp only [scanLine, hsys2, hloc2, hflags2, hinst2, hbaz2]
    simp only [process_extra_include_command_line, hext]
  right
  refine ⟨_, heq, ?_⟩
  intro hcontra
  simp at hcontra

theorem scanLines_booted_classify (st : KernelState) (env : Env)
    (hD : st.hasDebugger = true) :
    ∀ (ls : List Str) (i : Nat),
      (∀ (j : Nat) (l : Str), l ∈ ls →
        isInternalFaultResult (scanLine st env j l).2 = false) →
      (∃ m, scanLines st env i ls = ([], .error (.packageInstallException m))) ∨
      (∃ scan, scanLines st env i ls = ([], .ok scan) ∧
        ((∃ l ∈ ls, (matchKeywordSpace kwInstall l).isSome = true) →
          scan.pkgs ≠ [])) := by
  intro ls
  induction ls with
  | nil =>
    intro i _
    right
    refine ⟨emptyInstallScan, rfl, ?_⟩
    rintro ⟨l, hl, _⟩
    simp at hl
  | cons l rest ih =>
    intro i h
    have hl := scanLine_booted_classify st env hD i l
      (h i l (List.mem_cons_self _ _))
    rcases hl with ⟨m, hm⟩ | ⟨x, hx, hpkgs⟩
    · left
      refine ⟨m, ?_⟩
      simp [scanLines, hm]
    · have hrest := ih (i + 1) (fun j x2 hx2 => h j x2 (List.mem_cons_of_mem _ hx2))
      rcases hrest with ⟨m, hm⟩ | ⟨scan, hscan, hscanpkgs⟩
      · left
        refine ⟨m, ?_⟩
        simp [scanLines, hx, hm]
      · right
        refine ⟨scanCombine x scan, ?_, ?_⟩
        · simp [scanLines, hx, hscan]
        · rintro ⟨l2, hl2, hl2inst⟩
          rcases List.mem_cons.mp hl2 with hhead | htail
          · subst hhead
            have := hpkgs hl2inst
            simp only [scanCombine, ne_eq, List.append_eq_nil]
            intro hcontra
            exact this hcontra.1
          · have := hscanpkgs ⟨l2, htail, hl2inst⟩
            simp only [scanCombine, ne_eq, List.append_eq_nil]
            intro hcontra
            exact this hcontra.2

theorem process_installs_booted (st : KernelState) (env : Env)
    (tails : InstallTails) (code : Str) (hD : st.hasDebugger = true)
    (hinst : ∃ l ∈ pySplitLines code, (matchKeywordSpace kwInstall l).isSome = true)
    (hnf : ∀ (j : Nat) (l : Str), l ∈ pySplitLines code →
      isInternalFaultResult (scanLine st env j l).2 = false) :
    ∃ m, process_installs st env tails code =
      ([], .error (.packageInstallException m)) := by
  rcases scanLines_booted_classify st env hD (pySplitLines code) 0 hnf with
    ⟨m, hm⟩ | ⟨scan, hscan, hpkgs⟩
  · refine ⟨m, ?_⟩
    simp [process_installs, hm]
  · have hpkgs2 : scan.pkgs ≠ [] := hpkgs hinst
    have hne : scan.pkgs.isEmpty = false := by
      rcases hp : scan.pkgs with _ | _
      · exact absurd hp hpkgs2
      · rfl
    rcases hbaz : scan.bazelDeps with _ | ⟨b, bs⟩
    · refine ⟨installFirstCellText, ?_⟩
      simp only [process_installs, hscan, hne, Bool.not_false, Bool.true_or, if_true]
      rw [hbaz]
      simp only [List.isEmpty_nil, Bool.not_true, Bool.false_eq_true, if_false]
      simp only [install_packages, hne, Bool.false_and, Bool.false_eq_true, if_false,
        hD, if_true]
      simp
    · refine ⟨mixedPackagesText, ?_⟩
      simp only [process_installs, hscan, hne, Bool.not_false, Bool.true_or, if_true]
      rw [hbaz]
      simp

theorem pyIsBlank_false_of_mem {c : Char} {s : Str} (hc : c ∈ s)
    (hns : pyIsSpaceChar c = false) : pyIsBlank s = false := by
  have hne : s.isEmpty = false := by
    cases s with
    | nil => simp at hc
    | cons a rest => rfl
  have hall : s.all pyIsSpaceChar = false := by
    rcases hq : s.all pyIsSpaceChar with _ | _
    · rfl
    · have := (List.all_eq_true.mp hq) c hc
      rw [this] at hns
      exact Bool.noConfusion hns
  simp [pyIsBlank, hne, hall]

theorem installLine_not_blank {l code : Str} (hl : l ∈ pySplitLines code)
    (hinst : (matchKeywordSpace kwInstall l).isSome = true) :
    pyIsBlank code = false := by
  rcases hm : matchKeywordSpace kwInstall l with _ | r
  · rw [hm] at hinst
    simp at hinst
  · have hd := matchKeywordSpace_eq_some hm
    have hpct : '%' ∈ dropWS l := by
      rw [hd]
      show '%' ∈ (kwInstall ++ [' ']) ++ r
      simp [kwInstall, chars]
    have hinl : '%' ∈ l := mem_of_mem_dropWS hpct
    have hincode : '%' ∈ code := mem_of_mem_pySplitLines hl hinl
    exact pyIsBlank_false_of_mem hincode rfl

/-- C4 (amended): a submission containing an `%install` directive line that
arrives after the evaluator has booted always fails with a
`PackageInstallException` — provided no directive argument in the submission
trips an internal tokenizer or template fault (an unbalanced quote in a
directive argument, or a malformed `%install-location` template, raises an
error that is *not* caught as an install error; see the counterexample).
The exception is caught at the request boundary and reported as a single
error reply whose traceback is the exception text, and the session state is
returned unchanged, so the session remains usable. -/
theorem c4_install_after_boot (st : KernelState) (env : Env) (o : EvalOracle)
    (tails : InstallTails) (code : Str) (hD : st.hasDebugger = true)
    (hinst : ∃ l ∈ pySplitLines code, (matchKeywordSpace kwInstall l).isSome = true)
    (hnf : ∀ (j : Nat) (l : Str), l ∈ pySplitLines code →
      isInternalFaultResult (scanLine st env j l).2 = false) :
    ∃ m, process_installs st env tails code =
        ([], .error (.packageInstallException m)) ∧
      do_execute st env o tails code =
        ([Msg.errorMsg st.executionCount [m]],
         .reply (.error st.executionCount [m]) st false) := by
  obtain ⟨m, hm⟩ := process_installs_booted st env tails code hD hinst hnf
  obtain ⟨l, hl, hlinst⟩ := hinst
  have hblank : pyIsBlank code = false := installLine_not_blank hl hlinst
  refine ⟨m, hm, ?_⟩
  simp [do_execute, hblank, hm]

/-- C4 (counterexample): a dependency-install directive whose argument
contains an unbalanced quote, submitted after the evaluator has booted, is
*not* reported as a caught install error: `shlex` raises
`ValueError('No closing quotation')`, which the request boundary reports as
a bad-state error and re-raises, crashing the request instead of returning
a single error reply. -/
theorem c4_counterexample :
    do_execute bootedState trivialEnv trivialOracle trivialTails
        (chars "%install \"a b") =
      ([Msg.errorMsg 1 (badStateTraceback (chars "_process_installs")
          (chars "No closing quotation"))],
       .raised (chars "No closing quotation") bootedState) := by
  decide

theorem c4_install_after_boot_witness :
    process_installs bootedState trivialEnv trivialTails (chars "%install a b") =
      ([], .error (.packageInstallException installFirstCellText)) ∧
    do_execute bootedState trivialEnv trivialOracle trivialTails
        (chars "%install a b") =
      ([Msg.errorMsg 1 [installFirstCellText]],
       .reply (.error 1 [installFirstCellText]) bootedState false) := by
  obtain ⟨m, h1, h2⟩ := c4_install_after_boot bootedState trivialEnv trivialOracle
    trivialTails (chars "%install a b") rfl
    ⟨chars "%install a b", by decide, by decide⟩
    (by
      intro j l hl
      have hl2 : l = chars "%install a b" := by
        simpa [pySplitLines] using hl
      subst hl2
      rfl)
  have hm : m = installFirstCellText := by
    have hconc : process_installs bootedState trivialEnv trivialTails
        (chars "%install a b") =
        ([], .error (.packageInstallException installFirstCellText)) := by decide
    rw [hconc] at h1
    simp only [Prod.mk.injEq, Except.error.injEq,
      KernelException.packageInstallException.injEq, true_and] at h1
    exact h1.symm
  subst hm
  exact ⟨h1, h2⟩
